import Mathlib

/-!
# Verification of qurro's metadata utilities

Shallow embedding of `qurro/_metadata_utils.py` and proofs about it.

Python strings are modelled as Lean `String`s; pandas DataFrames are
modelled as explicit lists of index labels / column labels / cell rows;
IEEE-754 doubles produced by Python's `float()` are modelled exactly as
dyadic rationals (round-to-nearest, ties-to-even, 53-bit significand);
Python's `"{:.4f}".format` is modelled as correctly-rounded (ties-to-even)
decimal formatting of that exact rational value, which is the documented
behaviour of CPython float formatting.  Fallible Python code (exceptions)
is modelled with `Except`.
-/

namespace Qurro

/-- Error kinds raised by the metadata utilities.  `validationError`
models the `ValueError`s raised for structural problems (non-unique
headers, empty IDs, duplicate full feature IDs); `formatError` models the
`ValueError` raised by `float()` / tuple unpacking inside
`get_truncated_feature_id`; `keyError` models the Python `KeyError`
raised by a failing dict lookup. -/
inductive Err where
  | validationError
  | formatError
  | keyError
deriving DecidableEq, Repr

/-- One character of `fix_id`'s substitution: `.`→`:`, `]`→`)`, `[`→`(`,
and each of `'`, `"`, `\`→`|`; every other character passes through. -/
def fixChar (c : Char) : Char :=
  if c = '.' then ':'
  else if c = ']' then ')'
  else if c = '[' then '('
  else if c = '\'' ∨ c = '"' ∨ c = '\\' then '|'
  else c

/-- Embedding of `fix_id` (`_metadata_utils.py`, lines 64–85): builds the
escaped identifier character by character via `fixChar`. -/
def fix_id (fid : String) : String :=
  ⟨fid.data.map fixChar⟩

/-- A pandas DataFrame as used by these utilities: a list of row-index
labels, a list of column labels, and the cell rows.  Cells are `Option
String` (`none` models pandas `NaN`, the missing-value marker; everything
is read with `dtype=object`, so present cells are strings). -/
structure DataFrame where
  index : List String
  columns : List String
  data : List (List (Option String))
deriving DecidableEq, Repr

/-- Embedding of `ensure_df_headers_unique` (lines 16–41): errors if the
number of distinct index labels differs from the number of rows (checked
first), then likewise for column labels.  `List.dedup` plays the role of
pandas `.unique()`. -/
def ensure_df_headers_unique (df : DataFrame) : Except Err Unit :=
  if df.index.dedup.length ≠ df.index.length then .error .validationError
  else if df.columns.dedup.length ≠ df.columns.length then .error .validationError
  else .ok ()

/-- Embedding of `escape_columns` (lines 207–215): applies `fix_id` to
every column label in place, then re-checks header uniqueness. -/
def escape_columns (df : DataFrame) : Except Err DataFrame :=
  let df' : DataFrame := { df with columns := df.columns.map fix_id }
  match ensure_df_headers_unique df' with
  | .error e => .error e
  | .ok _ => .ok df'

/-- An exact rational (numerator, positive denominator), kept
unnormalized.  Used to model IEEE-754 double values and the exact
intermediate values of decimal parsing/formatting. -/
structure ExactQ where
  num : ℤ
  den : ℤ
deriving DecidableEq, Repr

namespace ExactQ

def ofInt (n : ℤ) : ExactQ := ⟨n, 1⟩

def mul (a b : ExactQ) : ExactQ := ⟨a.num * b.num, a.den * b.den⟩

def neg (a : ExactQ) : ExactQ := ⟨-a.num, a.den⟩

def absQ (a : ExactQ) : ExactQ := ⟨(a.num.natAbs : ℤ), a.den⟩

def isZero (a : ExactQ) : Bool := a.num = 0

def isNeg (a : ExactQ) : Bool := a.num < 0

def blt (a b : ExactQ) : Bool := a.num * b.den < b.num * a.den

def ble (a b : ExactQ) : Bool := a.num * b.den ≤ b.num * a.den

def floorQ (a : ExactQ) : ℤ := Int.fdiv a.num a.den

/-- `10 ^ e` as an exact rational, for `e : ℤ`. -/
def pow10 (e : ℤ) : ExactQ :=
  if 0 ≤ e then ⟨(10 : ℤ) ^ e.toNat, 1⟩ else ⟨1, (10 : ℤ) ^ (-e).toNat⟩

/-- `2 ^ e` as an exact rational, for `e : ℤ`. -/
def pow2 (e : ℤ) : ExactQ :=
  if 0 ≤ e then ⟨(2 : ℤ) ^ e.toNat, 1⟩ else ⟨1, (2 : ℤ) ^ (-e).toNat⟩

end ExactQ

/-- Round an exact rational to the nearest integer, ties to even (the
rounding used both by binary64 arithmetic and by CPython's float
formatting). -/
def roundHalfEven (x : ExactQ) : ℤ :=
  let f := x.floorQ
  let t := 2 * (x.num - f * x.den)
  if t < x.den then f
  else if x.den < t then f + 1
  else if f % 2 = 0 then f else f + 1

/-- Floor of log₂, by structural recursion on a fuel argument. -/
def log2fuel : Nat → Nat → Nat
  | 0, _ => 0
  | fuel + 1, n => if n < 2 then 0 else 1 + log2fuel fuel (n / 2)

def natLog2 (n : Nat) : Nat := log2fuel n n

/-- The binary exponent of a positive rational `a`: the `e` with
`2 ^ e ≤ a < 2 ^ (e + 1)`. -/
def expOf (a : ExactQ) : ℤ :=
  let e0 : ℤ := (natLog2 a.num.natAbs : ℤ) - (natLog2 a.den.natAbs : ℤ)
  if (ExactQ.pow2 (e0 - 1)).ble a ∧ a.blt (ExactQ.pow2 e0) then e0 - 1
  else if (ExactQ.pow2 e0).ble a ∧ a.blt (ExactQ.pow2 (e0 + 1)) then e0
  else e0 + 1

/-- Round an exact rational to the nearest IEEE-754 binary64 value
(53-bit significand, round to nearest, ties to even, gradual underflow
below `2 ^ (-1022)`; overflow to infinity is not modelled — the values
appearing here are far from the finite range's edge). -/
def nearestDouble (x : ExactQ) : ExactQ :=
  if x.isZero then ExactQ.ofInt 0
  else
    let a := x.absQ
    let e := expOf a
    let scale : ℤ := max (e - 52) (-1074)
    let m : ℤ := roundHalfEven (a.mul (ExactQ.pow2 (-scale)))
    let v := (ExactQ.ofInt m).mul (ExactQ.pow2 scale)
    if x.isNeg then v.neg else v

def isDigitChar (c : Char) : Bool := 48 ≤ c.toNat && c.toNat ≤ 57

def digitsVal (ds : List Char) : Nat := ds.foldl (fun n c => 10 * n + (c.toNat - 48)) 0

def parseExpDigits (cs : List Char) : Option ℤ :=
  let (sgn, cs2) : ℤ × List Char :=
    match cs with
    | '+' :: r => (1, r)
    | '-' :: r => (-1, r)
    | r => (1, r)
  if cs2 ≠ [] ∧ cs2.all isDigitChar then some (sgn * digitsVal cs2) else none

/-- Parse a decimal floating-point literal (optional sign, digits with an
optional fraction, optional exponent) to its exact rational value.
Models the inputs accepted by Python's `float()` for ordinary decimal
literals (not `inf`/`nan`/underscored forms). -/
def parseDecimal (s : String) : Option ExactQ :=
  let (sgnNeg, cs) : Bool × List Char :=
    match s.data with
    | '+' :: r => (false, r)
    | '-' :: r => (true, r)
    | r => (false, r)
  let intD := cs.takeWhile isDigitChar
  let rest1 := cs.dropWhile isDigitChar
  let (fracD, rest2) : List Char × List Char :=
    match rest1 with
    | '.' :: r => (r.takeWhile isDigitChar, r.dropWhile isDigitChar)
    | r => ([], r)
  if intD.isEmpty ∧ fracD.isEmpty then none
  else
    let expPart : Option ℤ :=
      match rest2 with
      | [] => some 0
      | 'e' :: r => parseExpDigits r
      | 'E' :: r => parseExpDigits r
      | _ => none
    match expPart with
    | none => none
    | some ex =>
      let mag := (ExactQ.ofInt (digitsVal (intD ++ fracD) : ℕ)).mul
        (ExactQ.pow10 (ex - fracD.length))
      some (if sgnNeg then mag.neg else mag)

/-- Python's `float(s)`: parse the literal exactly, then round to the
nearest binary64 value.  `none` models the `ValueError` raised on a
malformed literal. -/
def py_float (s : String) : Option ExactQ := (parseDecimal s).map nearestDouble

/-- Python's `"{:.4f}".format(x)` for a (finite) float `x`: the exact
value is correctly rounded to 4 decimal digits, ties to even, and the
sign is kept even when the rounded magnitude is zero. -/
def format4 (x : ExactQ) : String :=
  let n : ℤ := roundHalfEven (x.mul (ExactQ.ofInt 10000))
  let a : ℕ := n.natAbs
  let sign : String := if n < 0 ∨ (n = 0 ∧ x.isNeg) then "-" else ""
  let frac : ℕ := a % 10000
  sign ++ toString (a / 10000) ++ "." ++
    ⟨[Nat.digitChar (frac / 1000), Nat.digitChar (frac / 100 % 10),
      Nat.digitChar (frac / 10 % 10), Nat.digitChar (frac % 10)]⟩

/-- Python's `str.startswith`, modelled on the underlying character
list: `s` starts with `p` iff the first `|p|` characters of `s` are
exactly `p`. -/
def py_startswith (s p : String) : Bool := s.data.take p.data.length == p.data

/-- The check `line.startswith("#q2:")` used by the scanner. -/
def isQ2Line (l : String) : Bool := py_startswith l "#q2:"

/-- The loop of `iterate_over_file_obj_lines` inside `get_q2_comment_lines`
(lines 113–128).  The second argument is the running `line_num`; the first
line read at counter `0` is the header and is never checked.  For a line
with positive counter, a `#q2:` prefix appends the line number and the
loop continues; otherwise the loop breaks. -/
def iterLinesFrom : List String → Nat → List Nat
  | [], _ => []
  | _ :: ls, 0 => iterLinesFrom ls 1
  | l :: ls, n + 1 =>
    if isQ2Line l then (n + 1) :: iterLinesFrom ls (n + 2) else []

/-- Embedding of `iterate_over_file_obj_lines`: runs the loop with
`line_num = 0` over the lines produced by the file object. -/
def iterate_over_file_obj_lines (lines : List String) : List Nat :=
  iterLinesFrom lines 0

/-- A metadata source: either a file on disk (always read from the start)
or a `StringIO` with its full contents and a current read position. -/
inductive MdSource where
  | file (lines : List String)
  | stringBuffer (lines : List String) (pos : Nat)
deriving DecidableEq, Repr

/-- The lines a scan of the source will read: a file is opened fresh, a
`StringIO` is iterated from its current position. -/
def MdSource.toRead : MdSource → List String
  | .file ls => ls
  | .stringBuffer ls pos => ls.drop pos

/-- Embedding of `get_q2_comment_lines` (lines 88–141): scans the source
with `iterate_over_file_obj_lines` and, for a `StringIO`, seeks back to
position 0 before returning so the caller can re-read it.  Returns the
collected line numbers together with the state the source is left in. -/
def get_q2_comment_lines : MdSource → List Nat × MdSource
  | .file ls => (iterate_over_file_obj_lines ls, .file ls)
  | .stringBuffer ls pos => (iterate_over_file_obj_lines (ls.drop pos), .stringBuffer ls 0)

/-- Python's `s.split(";")` on the character list: splits at every
semicolon; adjacent separators produce empty fields and the empty string
yields a single empty field, as in Python. -/
def splitSemi : List Char → List (List Char)
  | [] => [[]]
  | c :: rest =>
    let r := splitSemi rest
    if c = ';' then [] :: r
    else
      match r with
      | [] => [[c]]
      | g :: gs => (c :: g) :: gs

def py_split_semicolon (s : String) : List String := (splitSemi s.data).map String.mk

/-- `float()` applied to every field, in order.  A `none` models the
`ValueError` Python raises at the first unparseable field. -/
def mapFloats : List String → Option (List ExactQ)
  | [] => some []
  | f :: fs =>
    match py_float f with
    | none => none
    | some x =>
      match mapFloats fs with
      | none => none
      | some xs => some (x :: xs)

/-- Embedding of `get_truncated_feature_id` (lines 218–226):
`mz, rt = list(map(float, full_feature_id.split(";")))` followed by
`"{:.4f};{:.4f}".format(mz, rt)`.  `float()` failing on a field, or the
unpacking failing because there are not exactly two fields, raises a
`ValueError` (modelled as `Err.formatError`). -/
def get_truncated_feature_id (full_feature_id : String) : Except Err String :=
  match mapFloats (py_split_semicolon full_feature_id) with
  | none => .error .formatError
  | some [mz, rt] => .ok (format4 mz ++ ";" ++ format4 rt)
  | some _ => .error .formatError

/-- The bogus full feature ID recorded for conflicting truncated IDs
(line 275). -/
def qurro_matching_conflict : String := "qurro_matching_conflict"

/-- One row of a GNPS feature metadata file after `pd.read_csv`: the two
numeric columns from which the truncated ID is built (binary64 values,
modelled exactly) and the `LibraryID` column. -/
structure GnpsRow where
  parentMass : ExactQ
  rtConsensus : ExactQ
  libraryID : String
deriving DecidableEq, Repr

/-- The `qurro_trunc_feature_id` column (lines 250–254):
`"{:.4f}".format` of the parent mass, `";"`, `"{:.4f}".format` of the
retention time. -/
def truncFromCols (r : GnpsRow) : String :=
  format4 r.parentMass ++ ";" ++ format4 r.rtConsensus

/-- One iteration of the mapping-construction loop (lines 262–275): the
first full ID truncating to a key records that full ID; a later full ID
whose truncation collides with an existing key overwrites the entry with
the conflict sentinel (the collision is only logged as a warning, never
raised).  The dict is an insertion-ordered association list with unique
keys. -/
def mapStep (m : List (String × String)) (fid : String) : Except Err (List (String × String)) :=
  match get_truncated_feature_id fid with
  | .error e => .error e
  | .ok tfid =>
    match m.lookup tfid with
    | none => .ok (m ++ [(tfid, fid)])
    | some _ => .ok (m.map fun p => if p.1 = tfid then (tfid, qurro_matching_conflict) else p)

/-- The `for fid in feature_ranks_df.index` loop (lines 261–275),
continued from an intermediate dict state `m`. -/
def buildMappingFrom : List (String × String) → List String → Except Err (List (String × String))
  | m, [] => .ok m
  | m, fid :: rest =>
    match mapStep m fid with
    | .error e => .error e
    | .ok m1 => buildMappingFrom m1 rest

/-- The truncated→full mapping built from the feature-ranks index
(lines 261–275). -/
def buildMapping (fids : List String) : Except Err (List (String × String)) :=
  buildMappingFrom [] fids

/-- The `qurro_full_feature_id` column (lines 277–279):
`truncated_id_to_full_id[tfid]` per row — a plain dict lookup, so a
truncated ID absent from the mapping raises `KeyError` (modelled by
`none`). -/
def resolveRows (mapping : List (String × String)) : List GnpsRow → Option (List (String × GnpsRow))
  | [] => some []
  | r :: rs =>
    match mapping.lookup (truncFromCols r) with
    | none => none
    | some fid =>
      match resolveRows mapping rs with
      | none => none
      | some ps => some ((fid, r) :: ps)

/-- The full ID a metadata row resolves to, for rows whose truncated ID
is present in the mapping. -/
def resolveFull (mapping : List (String × String)) (r : GnpsRow) : String :=
  (mapping.lookup (truncFromCols r)).getD ""

/-- Embedding of `read_gnps_feature_metadata_file` (lines 229–308) after
`pd.read_csv`: build the truncated→full mapping from the feature-ranks
index, resolve every metadata row's truncated ID through it (`KeyError`
on a missing key), drop the rows that resolved to the conflict sentinel,
set the full ID as the index with `verify_integrity=True` (duplicates
raise), and keep only the `LibraryID` column.  The result is the list of
(full feature ID, LibraryID) rows. -/
def read_gnps_feature_metadata_file (md : List GnpsRow) (feature_ranks : List String) :
    Except Err (List (String × String)) :=
  match buildMapping feature_ranks with
  | .error e => .error e
  | .ok mapping =>
    match resolveRows mapping md with
    | none => .error .keyError
    | some withFull =>
      let kept := withFull.filter fun p => p.1 ≠ qurro_matching_conflict
      if (kept.map Prod.fst).Nodup then
        .ok (kept.map fun p => (p.1, p.2.libraryID))
      else .error .validationError

/-- The characters stripped by Python's `str.strip()`. -/
def isPyWhitespace (c : Char) : Bool :=
  c = ' ' ∨ c = '\t' ∨ c = '\n' ∨ c = '\r' ∨ c = '\x0b' ∨ c = '\x0c'

/-- Python's `str.strip()`: remove leading and trailing whitespace. -/
def py_strip (s : String) : String :=
  ⟨((s.data.dropWhile isPyWhitespace).reverse.dropWhile isPyWhitespace).reverse⟩

/-- The per-cell normalization of `read_metadata_file` (lines 160–167):
`.str.strip()` strips every present string cell and leaves NaN alone;
`where(df != "", NaN)` then turns cells equal to `""` into NaN. -/
def normalizeCell (c : Option String) : Option String :=
  let s := c.map py_strip
  if s = some "" then none else s

/-- Whether a raw row's first cell ends up missing after the
normalization of `read_metadata_file`: the row has no first field, or its
first field strips to the empty string (`na_values=[""]` already turned
`""` into NaN, which stripping preserves). -/
def firstCellMissing (row : List String) : Bool :=
  match row with
  | [] => true
  | s :: _ => py_strip s = ""

/-- Embedding of `read_metadata_file` (lines 144–190) after
`pd.read_csv`: takes the header labels and the raw string cells of the
parsed rows (directive lines already skipped; `na_values=[""]` with
`keep_default_na=False` turns exactly the empty cells into NaN), strips
whitespace, converts newly empty cells to NaN, raises if the first
column contains a NaN, and finally promotes the first column to the
index. -/
def read_metadata_file (columns : List String) (rows : List (List String)) :
    Except Err DataFrame :=
  let parsed := rows.map (List.map fun s => if s = "" then none else some s)
  let normd := parsed.map (List.map normalizeCell)
  if normd.any fun r => (r.head?.join).isNone then .error .validationError
  else
    .ok { index := normd.map fun r => (r.head?.join).getD "",
          columns := columns.drop 1,
          data := normd.map (List.drop 1) }

theorem fixChar_fixChar (c : Char) : fixChar (fixChar c) = fixChar c := by
  by_cases h1 : c = '.'
  · subst h1; rfl
  by_cases h2 : c = ']'
  · subst h2; rfl
  by_cases h3 : c = '['
  · subst h3; rfl
  by_cases h4 : c = '\''
  · subst h4; rfl
  by_cases h5 : c = '"'
  · subst h5; rfl
  by_cases h6 : c = '\\'
  · subst h6; rfl
  have hc : fixChar c = c := by
    simp [fixChar, h1, h2, h3, h4, h5, h6]
  rw [hc, hc]

theorem dedup_length_eq_iff {α : Type} [DecidableEq α] {l : List α} :
    l.dedup.length = l.length ↔ l.Nodup := by
  constructor
  · intro h
    have hd := (List.dedup_sublist l).eq_of_length h
    rw [← hd]
    exact l.nodup_dedup
  · intro h
    rw [h.dedup]

/-- **C9.** `fix_id` is a pure total function and is idempotent on every
string: applying it twice yields the same result as applying it once,
because its substitution targets `: ) ( |` are disjoint from its five
trigger characters `. ] [ ' " \`. -/
theorem fix_id_idempotent (s : String) : fix_id (fix_id s) = fix_id s := by
  show String.mk ((s.data.map fixChar).map fixChar) = String.mk (s.data.map fixChar)
  rw [List.map_map]
  congr 1
  induction s.data with
  | nil => rfl
  | cons c cs ih =>
    simp only [List.map_cons, Function.comp_apply, fixChar_fixChar, ih]

/-- **C8.** Under the data-model invariant that the input table's row
index and column labels are each unique, `escape_columns` raises
`ValidationError` exactly when two distinct original column labels are
collapsed into one escaped label by `fix_id`; if no such collapse occurs
it succeeds, returning the table with every column label escaped. -/
theorem escape_columns_spec (df : DataFrame)
    (hidx : df.index.Nodup) (hcols : df.columns.Nodup) :
    (escape_columns df = .error .validationError ↔
      ∃ c1 ∈ df.columns, ∃ c2 ∈ df.columns, c1 ≠ c2 ∧ fix_id c1 = fix_id c2) ∧
    ((¬ ∃ c1 ∈ df.columns, ∃ c2 ∈ df.columns, c1 ≠ c2 ∧ fix_id c1 = fix_id c2) →
      escape_columns df = .ok { df with columns := df.columns.map fix_id }) := by
  have hi : df.index.dedup.length = df.index.length := by rw [hidx.dedup]
  have key : (df.columns.map fix_id).Nodup ↔
      ∀ x ∈ df.columns, ∀ y ∈ df.columns, fix_id x = fix_id y → x = y :=
    List.nodup_map_iff_inj_on hcols
  by_cases hP : ∃ c1 ∈ df.columns, ∃ c2 ∈ df.columns, c1 ≠ c2 ∧ fix_id c1 = fix_id c2
  · obtain ⟨c1, hc1, c2, hc2, hne, heq⟩ := hP
    have hnd : ¬ (df.columns.map fix_id).Nodup := by
      intro hnod
      exact hne (key.mp hnod c1 hc1 c2 hc2 heq)
    have hlen : (df.columns.map fix_id).dedup.length ≠ (df.columns.map fix_id).length := by
      intro h
      exact hnd (dedup_length_eq_iff.mp h)
    have hlen2 : (df.columns.map fix_id).dedup.length ≠ df.columns.length := by
      simpa using hlen
    constructor
    · constructor
      · intro _
        exact ⟨c1, hc1, c2, hc2, hne, heq⟩
      · intro _
        simp [escape_columns, ensure_df_headers_unique, hi, hlen2]
    · intro hn
      exact absurd ⟨c1, hc1, c2, hc2, hne, heq⟩ hn
  · have hinj : ∀ x ∈ df.columns, ∀ y ∈ df.columns, fix_id x = fix_id y → x = y := by
      intro x hx y hy hxy
      by_contra hne
      exact hP ⟨x, hx, y, hy, hne, hxy⟩
    have hnod : (df.columns.map fix_id).Nodup := key.mpr hinj
    have hlen : (df.columns.map fix_id).dedup.length = (df.columns.map fix_id).length :=
      dedup_length_eq_iff.mpr hnod
    have hlen2 : (df.columns.map fix_id).dedup.length = df.columns.length := by
      simpa using hlen
    constructor
    · constructor
      · intro herr
        simp [escape_columns, ensure_df_headers_unique, hi, hlen2] at herr
      · intro h
        exact absurd h hP
    · intro _
      simp [escape_columns, ensure_df_headers_unique, hi, hlen2]

/-- Concrete instance of `escape_columns_spec`: the distinct labels
`"a.b"` and `"a:b"` both escape to `"a:b"`, so `escape_columns` raises
`ValidationError`. -/
theorem escape_columns_spec_witness :
    escape_columns ⟨["r"], ["a.b", "a:b"], [[some "1", some "2"]]⟩ =
      .error .validationError := by
  have h := escape_columns_spec ⟨["r"], ["a.b", "a:b"], [[some "1", some "2"]]⟩
    (by decide) (by decide)
  exact h.1.mpr ⟨"a.b", by decide, "a:b", by decide, by decide, by decide⟩

theorem iterLinesFrom_succ (ls : List String) (n : Nat) :
    iterLinesFrom ls (n + 1) = List.range' (n + 1) (ls.takeWhile isQ2Line).length := by
  induction ls generalizing n with
  | nil => rfl
  | cons l ls ih =>
    simp only [iterLinesFrom]
    by_cases hq : isQ2Line l
    · rw [if_pos hq, List.takeWhile_cons_of_pos hq, List.length_cons,
        List.range'_succ _ _ 1, ih]
    · rw [if_neg hq, List.takeWhile_cons_of_neg (by simpa using hq)]
      rfl

theorem iterate_over_file_obj_lines_eq (lines : List String) :
    iterate_over_file_obj_lines lines =
      List.range' 1 ((lines.drop 1).takeWhile isQ2Line).length := by
  cases lines with
  | nil => rfl
  | cons h t =>
    show iterLinesFrom t 1 = _
    rw [iterLinesFrom_succ]
    rfl

/-- **C6.** The scanner returns exactly the zero-based numbers of the
maximal contiguous run of `#q2:`-prefixed lines following the header
line (line 0): the list `[1, …, k]` where `k` is the length of that run.
In particular a source whose first three non-header lines carry the
prefix, followed by a normal data line, yields `[1, 2, 3]`; and a
seekable (`StringIO`) source is left rewound to position 0, fully
re-readable by the caller. -/
theorem get_q2_comment_lines_spec :
    (∀ src : MdSource, (get_q2_comment_lines src).1 =
      List.range' 1 ((src.toRead.drop 1).takeWhile isQ2Line).length) ∧
    (∀ ls pos, (get_q2_comment_lines (.stringBuffer ls pos)).2 = .stringBuffer ls 0) ∧
    (∀ h l1 l2 l3 d rest, isQ2Line l1 = true → isQ2Line l2 = true →
      isQ2Line l3 = true → isQ2Line d = false →
      (get_q2_comment_lines (.stringBuffer (h :: l1 :: l2 :: l3 :: d :: rest) 0)).1 =
        [1, 2, 3]) := by
  refine ⟨?_, ?_, ?_⟩
  · intro src
    cases src with
    | file ls => exact iterate_over_file_obj_lines_eq ls
    | stringBuffer ls pos => exact iterate_over_file_obj_lines_eq (ls.drop pos)
  · intro ls pos
    rfl
  · intro h l1 l2 l3 d rest h1 h2 h3 hd
    have hfst : (get_q2_comment_lines (.stringBuffer (h :: l1 :: l2 :: l3 :: d :: rest) 0)).1
        = iterate_over_file_obj_lines (h :: l1 :: l2 :: l3 :: d :: rest) := rfl
    rw [hfst, iterate_over_file_obj_lines_eq]
    simp only [List.drop_succ_cons, List.drop_zero]
    rw [List.takeWhile_cons_of_pos h1, List.takeWhile_cons_of_pos h2,
      List.takeWhile_cons_of_pos h3, List.takeWhile_cons_of_neg (by simp [hd])]
    rfl

/-- Concrete instance of `get_q2_comment_lines_spec`: a `StringIO` with a
header line, three `#q2:` directive lines and one data line yields
`[1, 2, 3]`, and the source is rewound to position 0. -/
theorem get_q2_comment_lines_spec_witness :
    (get_q2_comment_lines
      (.stringBuffer ["id\tcol", "#q2:types", "#q2:a", "#q2:b", "s1\tv"] 0)).1 = [1, 2, 3] ∧
    (get_q2_comment_lines
      (.stringBuffer ["id\tcol", "#q2:types", "#q2:a", "#q2:b", "s1\tv"] 0)).2 =
      .stringBuffer ["id\tcol", "#q2:types", "#q2:a", "#q2:b", "s1\tv"] 0 := by
  constructor
  · exact get_q2_comment_lines_spec.2.2 "id\tcol" "#q2:types" "#q2:a" "#q2:b" "s1\tv" []
      (by decide) (by decide) (by decide) (by decide)
  · exact get_q2_comment_lines_spec.2.1 _ 0

/-- **C10.** The scanner's output is always a contiguous run starting at
line 1: it equals `[1, 2, …, k]` for some `k ≥ 0`, so line 0 never
appears in it and it has no gaps. -/
theorem get_q2_comment_lines_contiguous (src : MdSource) :
    ∃ k, (get_q2_comment_lines src).1 = List.range' 1 k ∧
      0 ∉ (get_q2_comment_lines src).1 := by
  refine ⟨((src.toRead.drop 1).takeWhile isQ2Line).length, ?_, ?_⟩
  · cases src with
    | file ls => exact iterate_over_file_obj_lines_eq ls
    | stringBuffer ls pos => exact iterate_over_file_obj_lines_eq (ls.drop pos)
  · have hq : (get_q2_comment_lines src).1 =
        List.range' 1 ((src.toRead.drop 1).takeWhile isQ2Line).length := by
      cases src with
      | file ls => exact iterate_over_file_obj_lines_eq ls
      | stringBuffer ls pos => exact iterate_over_file_obj_lines_eq (ls.drop pos)
    rw [hq, List.mem_range'_1]
    omega

theorem digitChar_isDigit (d : Nat) (hd : d < 10) : isDigitChar (Nat.digitChar d) = true := by
  interval_cases d <;> rfl

theorem format4_shape (x : ExactQ) :
    ∃ pre post : String, format4 x = pre ++ "." ++ post ∧
      post.length = 4 ∧ post.data.all isDigitChar := by
  refine ⟨(if roundHalfEven (x.mul (ExactQ.ofInt 10000)) < 0 ∨
      (roundHalfEven (x.mul (ExactQ.ofInt 10000)) = 0 ∧ x.isNeg) then "-" else "") ++
      toString ((roundHalfEven (x.mul (ExactQ.ofInt 10000))).natAbs / 10000),
    ⟨[Nat.digitChar ((roundHalfEven (x.mul (ExactQ.ofInt 10000))).natAbs % 10000 / 1000),
      Nat.digitChar ((roundHalfEven (x.mul (ExactQ.ofInt 10000))).natAbs % 10000 / 100 % 10),
      Nat.digitChar ((roundHalfEven (x.mul (ExactQ.ofInt 10000))).natAbs % 10000 / 10 % 10),
      Nat.digitChar ((roundHalfEven (x.mul (ExactQ.ofInt 10000))).natAbs % 10000 % 10)]⟩,
    ?_, rfl, ?_⟩
  · rw [format4, String.append_assoc]
  · have hfrac : (roundHalfEven (x.mul (ExactQ.ofInt 10000))).natAbs % 10000 < 10000 :=
      Nat.mod_lt _ (by omega)
    simp only [List.all_cons, List.all_nil, Bool.and_true, Bool.and_eq_true]
    refine ⟨digitChar_isDigit _ (by omega), digitChar_isDigit _ (Nat.mod_lt _ (by omega)),
      digitChar_isDigit _ (Nat.mod_lt _ (by omega)), digitChar_isDigit _ (Nat.mod_lt _ (by omega))⟩

/-- **C4.** For every full identifier that splits on `;` into exactly two
float-parseable fields, `get_truncated_feature_id` returns the two parsed
values each formatted to exactly four decimal digits (a `.` followed by
exactly 4 digit characters) joined by `;`, with correct rounding rather
than truncation; in particular on `"100.12345;200.98765"` it returns
`"100.1235;200.9877"`. -/
theorem get_truncated_feature_id_four_decimals :
    (∀ s f1 f2 x1 x2, py_split_semicolon s = [f1, f2] →
      py_float f1 = some x1 → py_float f2 = some x2 →
      get_truncated_feature_id s = .ok (format4 x1 ++ ";" ++ format4 x2) ∧
      (∃ pre post : String, format4 x1 = pre ++ "." ++ post ∧
        post.length = 4 ∧ post.data.all isDigitChar) ∧
      (∃ pre post : String, format4 x2 = pre ++ "." ++ post ∧
        post.length = 4 ∧ post.data.all isDigitChar)) ∧
    get_truncated_feature_id "100.12345;200.98765" = .ok "100.1235;200.9877" := by
  constructor
  · intro s f1 f2 x1 x2 hsplit hf1 hf2
    refine ⟨?_, format4_shape x1, format4_shape x2⟩
    simp [get_truncated_feature_id, hsplit, mapFloats, hf1, hf2]
  · rfl

/-- Concrete instance of `get_truncated_feature_id_four_decimals` at the
input `"100.12345;200.98765"` (the two rationals are the exact binary64
values of the two fields). -/
theorem get_truncated_feature_id_four_decimals_witness :
    get_truncated_feature_id "100.12345;200.98765" =
      .ok (format4 ⟨7045561439235133, 70368744177664⟩ ++ ";" ++
        format4 ⟨7071624262859935, 35184372088832⟩) ∧
    get_truncated_feature_id "100.12345;200.98765" = .ok "100.1235;200.9877" := by
  constructor
  · exact (get_truncated_feature_id_four_decimals.1 "100.12345;200.98765"
      "100.12345" "200.98765" _ _ (by decide) (by decide) (by decide)).1
  · exact get_truncated_feature_id_four_decimals.2

/-- **C5.** For every input string that does not split on `;` into
exactly two float-parseable fields, `get_truncated_feature_id` raises
(`Err.formatError`); malformed identifiers are never silently skipped. -/
theorem get_truncated_feature_id_malformed (s : String)
    (h : ¬ ∃ f1 f2 x1 x2, py_split_semicolon s = [f1, f2] ∧
      py_float f1 = some x1 ∧ py_float f2 = some x2) :
    get_truncated_feature_id s = .error .formatError := by
  rw [get_truncated_feature_id]
  cases hm : mapFloats (py_split_semicolon s) with
  | none => rfl
  | some vals =>
    cases hp : py_split_semicolon s with
    | nil =>
      rw [hp] at hm
      simp only [mapFloats] at hm
      rw [← hm]
    | cons f1 rest =>
      rw [hp] at hm
      cases hpf1 : py_float f1 with
      | none =>
        simp only [mapFloats, hpf1] at hm
        exact Option.noConfusion hm
      | some x1 =>
        cases rest with
        | nil =>
          simp only [mapFloats, hpf1] at hm
          rw [← hm]
        | cons f2 rest2 =>
          cases hpf2 : py_float f2 with
          | none =>
            simp only [mapFloats, hpf1, hpf2] at hm
            exact Option.noConfusion hm
          | some x2 =>
            cases rest2 with
            | nil => exact absurd ⟨f1, f2, x1, x2, hp, hpf1, hpf2⟩ h
            | cons f3 rest3 =>
              cases hpf3 : py_float f3 with
              | none =>
                simp only [mapFloats, hpf1, hpf2, hpf3] at hm
                exact Option.noConfusion hm
              | some x3 =>
                cases hm3 : mapFloats rest3 with
                | none =>
                  simp only [mapFloats, hpf1, hpf2, hpf3, hm3] at hm
                  exact Option.noConfusion hm
                | some xs =>
                  simp only [mapFloats, hpf1, hpf2, hpf3, hm3] at hm
                  rw [← hm]

/-- Concrete instance of `get_truncated_feature_id_malformed`: the
malformed identifiers `"abc"` (no `;`, not a float) and `"1;2;3"` (three
fields) both raise. -/
theorem get_truncated_feature_id_malformed_witness :
    get_truncated_feature_id "abc" = .error .formatError ∧
    get_truncated_feature_id "1;2;3" = .error .formatError := by
  constructor
  · refine get_truncated_feature_id_malformed "abc" ?_
    rintro ⟨f1, f2, x1, x2, hsplit, -, -⟩
    have hs : py_split_semicolon "abc" = ["abc"] := by decide
    rw [hs] at hsplit
    simp at hsplit
  · refine get_truncated_feature_id_malformed "1;2;3" ?_
    rintro ⟨f1, f2, x1, x2, hsplit, -, -⟩
    have hs : py_split_semicolon "1;2;3" = ["1", "2", "3"] := by decide
    rw [hs] at hsplit
    simp at hsplit

theorem normalizeCell_some (s : String) :
    normalizeCell (some s) = if py_strip s = "" then none else some (py_strip s) := by
  by_cases h : py_strip s = "" <;> simp [normalizeCell, h]

theorem normalizeCell_cases (c : Option String) :
    normalizeCell c = none ∨ ∃ s, normalizeCell c = some (py_strip s) ∧ py_strip s ≠ "" := by
  cases c with
  | none => exact Or.inl rfl
  | some s =>
    by_cases h : py_strip s = ""
    · exact Or.inl (by simp [normalizeCell_some, h])
    · exact Or.inr ⟨s, by simp [normalizeCell_some, h], h⟩

theorem rowMissing_eq (row : List String) :
    ((((row.map fun s => if s = "" then none else some s).map
      normalizeCell).head?.join).isNone) = firstCellMissing row := by
  cases row with
  | nil => rfl
  | cons s t =>
    show (normalizeCell (if s = "" then none else some s)).isNone = firstCellMissing (s :: t)
    by_cases h : s = ""
    · subst h
      rfl
    · rw [if_neg h, normalizeCell_some]
      by_cases hs : py_strip s = "" <;> simp [hs, firstCellMissing]

/-- **C7.** `read_metadata_file` strips surrounding whitespace from every
string cell and converts a cell whose stripped value is the empty string
to the missing marker (so a value of `"  "` becomes missing, never an
empty string): every cell of the returned body is either missing or a
stripped, non-empty string.  It raises `ValidationError` exactly when
some row's first (identifier) cell is missing after the normalization —
including identifiers that were whitespace-only. -/
theorem read_metadata_file_spec :
    (∀ s, normalizeCell (some s) = if py_strip s = "" then none else some (py_strip s)) ∧
    normalizeCell (some "  ") = none ∧
    (∀ columns rows, read_metadata_file columns rows = .error .validationError ↔
      ∃ row ∈ rows, firstCellMissing row) ∧
    (∀ columns rows df, read_metadata_file columns rows = .ok df →
      ∀ row ∈ df.data, ∀ c ∈ row,
        c = none ∨ ∃ s, c = some (py_strip s) ∧ py_strip s ≠ "") := by
  refine ⟨normalizeCell_some, rfl, ?_, ?_⟩
  · intro columns rows
    rw [read_metadata_file]
    have hc : ∀ rs : List (List String),
        ((rs.map (List.map fun s => if s = "" then none else some s)).map
          (List.map normalizeCell)).any (fun r => (r.head?.join).isNone) =
        rs.any firstCellMissing := by
      intro rs
      induction rs with
      | nil => rfl
      | cons row rest ih =>
        simp only [List.map_cons, List.any_cons, ih, rowMissing_eq]
    have hc := hc rows
    by_cases he : rows.any firstCellMissing = true
    · rw [hc, if_pos he]
      simp only [true_iff]
      exact (List.any_eq_true.mp he).imp fun row ⟨h1, h2⟩ => ⟨h1, h2⟩
    · rw [hc, if_neg he]
      simp only [false_iff, reduceCtorEq, false_iff]
      intro hex
      exact he (List.any_eq_true.mpr hex)
  · intro columns rows df hok row hrow c hc
    rw [read_metadata_file] at hok
    split at hok
    · exact absurd hok (by simp)
    · have hdf : df.data = rows.map fun raw =>
          ((raw.map fun s => if s = "" then none else some s).map normalizeCell).drop 1 := by
        cases hok
        show ((rows.map (List.map fun s => if s = "" then none else some s)).map
          (List.map normalizeCell)).map (List.drop 1) = _
        rw [List.map_map, List.map_map]
        rfl
      rw [hdf] at hrow
      obtain ⟨raw, hraw, hrow_eq⟩ := List.mem_map.mp hrow
      have hc' : c ∈ (raw.map fun s => if s = "" then none else some s).map normalizeCell := by
        apply List.mem_of_mem_drop
        rw [hrow_eq]
        exact hc
      obtain ⟨c0, _, hc0⟩ := List.mem_map.mp hc'
      rw [← hc0]
      exact normalizeCell_cases c0

/-- Concrete instance of `read_metadata_file_spec`: a whitespace-only row
identifier raises `ValidationError`, and a `"  "` value cell normalizes
to missing. -/
theorem read_metadata_file_spec_witness :
    read_metadata_file ["id", "v"] [["   ", "x"]] = .error .validationError ∧
    normalizeCell (some "  ") = none := by
  constructor
  · exact (read_metadata_file_spec.2.2.1 ["id", "v"] [["   ", "x"]]).mpr
      ⟨["   ", "x"], by simp, by decide⟩
  · exact read_metadata_file_spec.2.1

theorem lookup_append_of_some {m z : List (String × String)} {a v : String}
    (h : m.lookup a = some v) : (m ++ z).lookup a = some v := by
  induction m with
  | nil => simp [List.lookup] at h
  | cons p t ih =>
    obtain ⟨k, w⟩ := p
    by_cases hk : a = k
    · subst hk
      rw [List.lookup, beq_self_eq_true] at h
      rw [List.cons_append, List.lookup, beq_self_eq_true]
      exact h
    · rw [List.lookup, show (a == k) = false from beq_eq_false_iff_ne.mpr hk] at h
      rw [List.cons_append, List.lookup,
        show (a == k) = false from beq_eq_false_iff_ne.mpr hk]
      exact ih h

theorem lookup_replace_self {m : List (String × String)} {k v' g : String}
    (h : m.lookup k = some g) :
    (m.map fun p => if p.1 = k then (k, v') else p).lookup k = some v' := by
  induction m with
  | nil => simp [List.lookup] at h
  | cons p t ih =>
    obtain ⟨k1, w⟩ := p
    by_cases hk : k1 = k
    · subst hk
      rw [List.map_cons, if_pos rfl, List.lookup, beq_self_eq_true]
    · rw [List.lookup, show (k == k1) = false from beq_eq_false_iff_ne.mpr
        fun he => hk he.symm] at h
      rw [List.map_cons, if_neg hk, List.lookup,
        show (k == k1) = false from beq_eq_false_iff_ne.mpr fun he => hk he.symm]
      exact ih h

theorem lookup_replace_other {m : List (String × String)} {k t v' : String} (h : t ≠ k) :
    (m.map fun p => if p.1 = k then (k, v') else p).lookup t = m.lookup t := by
  induction m with
  | nil => rfl
  | cons p rest ih =>
    obtain ⟨k1, w⟩ := p
    by_cases hk : k1 = k
    · subst hk
      rw [List.map_cons, if_pos rfl, List.lookup,
        show (t == k1) = false from beq_eq_false_iff_ne.mpr h, List.lookup,
        show (t == k1) = false from beq_eq_false_iff_ne.mpr h]
      exact ih
    · rw [List.map_cons, if_neg hk, List.lookup]
      by_cases ht : t = k1
      · subst ht
        rw [beq_self_eq_true, List.lookup, beq_self_eq_true]
      · rw [show (t == k1) = false from beq_eq_false_iff_ne.mpr ht, List.lookup,
          show (t == k1) = false from beq_eq_false_iff_ne.mpr ht]
        exact ih

theorem mapStep_preserves_conflict {m m1 : List (String × String)} {fid tfid : String}
    (hconf : m.lookup tfid = some qurro_matching_conflict)
    (hstep : mapStep m fid = .ok m1) :
    m1.lookup tfid = some qurro_matching_conflict := by
  rw [mapStep] at hstep
  cases hg : get_truncated_feature_id fid with
  | error e =>
    simp only [hg] at hstep
    exact Except.noConfusion hstep
  | ok tfid' =>
    simp only [hg] at hstep
    cases hl : m.lookup tfid' with
    | none =>
      simp only [hl] at hstep
      cases hstep
      exact lookup_append_of_some hconf
    | some g =>
      simp only [hl] at hstep
      cases hstep
      by_cases he : tfid = tfid'
      · subst he
        exact lookup_replace_self hconf
      · rw [lookup_replace_other he]
        exact hconf

theorem buildMappingFrom_conflict {tfid : String} :
    ∀ (fids : List String) (m m' : List (String × String)),
    m.lookup tfid = some qurro_matching_conflict →
    buildMappingFrom m fids = .ok m' →
    m'.lookup tfid = some qurro_matching_conflict := by
  intro fids
  induction fids with
  | nil =>
    intro m m' hconf hfold
    cases hfold
    exact hconf
  | cons fid rest ih =>
    intro m m' hconf hfold
    rw [buildMappingFrom] at hfold
    cases hstep : mapStep m fid with
    | error e =>
      rw [hstep] at hfold
      exact Except.noConfusion hfold
    | ok m1 =>
      rw [hstep] at hfold
      exact ih m1 m' (mapStep_preserves_conflict hconf hstep) hfold

theorem buildMappingFrom_ok :
    ∀ (fids : List String) (m : List (String × String)),
    (∀ fid ∈ fids, ∃ t, get_truncated_feature_id fid = .ok t) →
    ∃ m', buildMappingFrom m fids = .ok m' := by
  intro fids
  induction fids with
  | nil => exact fun m _ => ⟨m, rfl⟩
  | cons fid rest ih =>
    intro m hall
    obtain ⟨t, ht⟩ := hall fid (List.mem_cons_self fid rest)
    have hstep : ∃ m1, mapStep m fid = .ok m1 := by
      cases hlt : m.lookup t with
      | none => exact ⟨m ++ [(t, fid)], by simp only [mapStep, ht, hlt]⟩
      | some g =>
        exact ⟨m.map fun p => if p.1 = t then (t, qurro_matching_conflict) else p,
          by simp only [mapStep, ht, hlt]⟩
    obtain ⟨m1, hm1⟩ := hstep
    obtain ⟨m', hm'⟩ := ih m1 fun f hf => hall f (List.mem_cons_of_mem fid hf)
    refine ⟨m', ?_⟩
    rw [buildMappingFrom, hm1]
    exact hm'

/-- **C3.** Per-key state machine of the mapping construction: the first
reference identifier truncating to a key records that full identifier
(Unseen → Mapped); a later, different full identifier truncating to an
already-seen key overwrites the entry with the conflict sentinel
(Mapped → Conflicted); once a key holds the sentinel it still holds it
after any successful continuation of the loop (Conflicted is terminal);
and a collision never raises — whenever every reference identifier is
truncatable the whole construction succeeds (collisions are only logged
as warnings). -/
theorem buildMapping_state_machine :
    (∀ (m : List (String × String)) fid tfid,
      get_truncated_feature_id fid = .ok tfid → m.lookup tfid = none →
      mapStep m fid = .ok (m ++ [(tfid, fid)])) ∧
    (∀ (m : List (String × String)) fid tfid g,
      get_truncated_feature_id fid = .ok tfid → m.lookup tfid = some g → g ≠ fid →
      mapStep m fid =
        .ok (m.map fun p => if p.1 = tfid then (tfid, qurro_matching_conflict) else p) ∧
      (m.map fun p => if p.1 = tfid then (tfid, qurro_matching_conflict) else p).lookup tfid =
        some qurro_matching_conflict) ∧
    (∀ (fids : List String) (m m' : List (String × String)) tfid,
      m.lookup tfid = some qurro_matching_conflict →
      buildMappingFrom m fids = .ok m' →
      m'.lookup tfid = some qurro_matching_conflict) ∧
    (∀ fids : List String,
      (∀ fid ∈ fids, ∃ t, get_truncated_feature_id fid = .ok t) →
      ∃ m', buildMapping fids = .ok m') := by
  refine ⟨?_, ?_, ?_, ?_⟩
  · intro m fid tfid hg hl
    simp only [mapStep, hg, hl]
  · intro m fid tfid g hg hl hne
    refine ⟨?_, lookup_replace_self hl⟩
    simp only [mapStep, hg, hl]
  · intro fids m m' tfid hconf hfold
    exact buildMappingFrom_conflict fids m m' hconf hfold
  · intro fids hall
    exact buildMappingFrom_ok fids [] hall

/-- Concrete instance of `buildMapping_state_machine`: the second
reference identifier truncating to the already-mapped key
`"1.0000;2.0000"` overwrites the entry with the conflict sentinel; the
sentinel survives the rest of the loop; and the whole construction
succeeds despite the collision. -/
theorem buildMapping_state_machine_witness :
    mapStep [("1.0000;2.0000", "1.00001;2.00001")] "1.00002;2.00002" =
      .ok [("1.0000;2.0000", "qurro_matching_conflict")] ∧
    (∃ m', buildMappingFrom [("1.0000;2.0000", "qurro_matching_conflict")] ["5.5;6.6"] =
        .ok m' ∧ m'.lookup "1.0000;2.0000" = some qurro_matching_conflict) ∧
    (∃ m', buildMapping ["1.00001;2.00001", "1.00002;2.00002"] = .ok m') := by
  refine ⟨?_, ?_, ?_⟩
  · have h := (buildMapping_state_machine.2.1 [("1.0000;2.0000", "1.00001;2.00001")]
      "1.00002;2.00002" "1.0000;2.0000" "1.00001;2.00001" rfl (by decide)
      (by decide)).1
    exact h.trans (congrArg Except.ok (by decide))
  · refine ⟨[("1.0000;2.0000", "qurro_matching_conflict"), ("5.5000;6.6000", "5.5;6.6")],
      rfl, ?_⟩
    exact buildMapping_state_machine.2.2.1 ["5.5;6.6"]
      [("1.0000;2.0000", "qurro_matching_conflict")]
      [("1.0000;2.0000", "qurro_matching_conflict"), ("5.5000;6.6000", "5.5;6.6")]
      "1.0000;2.0000" (by decide) rfl
  · refine buildMapping_state_machine.2.2.2 ["1.00001;2.00001", "1.00002;2.00002"] ?_
    intro fid hf
    simp only [List.mem_cons, List.not_mem_nil, or_false] at hf
    rcases hf with rfl | rfl
    · exact ⟨"1.0000;2.0000", rfl⟩
    · exact ⟨"1.0000;2.0000", rfl⟩

theorem resolveRows_of_all (mapping : List (String × String)) :
    ∀ md : List GnpsRow, (∀ r ∈ md, mapping.lookup (truncFromCols r) ≠ none) →
    resolveRows mapping md = some (md.map fun r => (resolveFull mapping r, r)) := by
  intro md
  induction md with
  | nil => intro _; rfl
  | cons r rs ih =>
    intro hall
    cases hl : mapping.lookup (truncFromCols r) with
    | none => exact absurd hl (hall r (List.mem_cons_self r rs))
    | some fid =>
      have hres := ih fun x hx => hall x (List.mem_cons_of_mem r hx)
      simp only [resolveRows, hl, hres, List.map_cons]
      simp [resolveFull, hl]

/-- **C1.** Whenever the mapping construction succeeds and every external
row's truncated ID is present in the mapping, `read_gnps_feature_metadata_file`
drops exactly the external rows whose resolved full identifier is the
conflict sentinel, re-indexes every remaining row under its resolved full
identifier (keeping only the LibraryID column), and raises
`ValidationError` exactly when duplicate full identifiers remain after
the drop. -/
theorem read_gnps_feature_metadata_file_spec
    (md : List GnpsRow) (ranks : List String) (mapping : List (String × String))
    (hm : buildMapping ranks = .ok mapping)
    (hall : ∀ r ∈ md, mapping.lookup (truncFromCols r) ≠ none) :
    (((md.filter fun r => resolveFull mapping r ≠ qurro_matching_conflict).map
        fun r => resolveFull mapping r).Nodup →
      read_gnps_feature_metadata_file md ranks =
        .ok ((md.filter fun r => resolveFull mapping r ≠ qurro_matching_conflict).map
          fun r => (resolveFull mapping r, r.libraryID))) ∧
    (¬ ((md.filter fun r => resolveFull mapping r ≠ qurro_matching_conflict).map
        fun r => resolveFull mapping r).Nodup →
      read_gnps_feature_metadata_file md ranks = .error .validationError) := by
  have hres := resolveRows_of_all mapping md hall
  have hkept : ((md.map fun r => (resolveFull mapping r, r)).filter
      fun p => p.1 ≠ qurro_matching_conflict) =
      ((md.filter fun r => resolveFull mapping r ≠ qurro_matching_conflict).map
        fun r => (resolveFull mapping r, r)) := by
    rw [List.filter_map]
    rfl
  have hfst : (((md.filter fun r => resolveFull mapping r ≠ qurro_matching_conflict).map
      fun r => (resolveFull mapping r, r)).map Prod.fst) =
      ((md.filter fun r => resolveFull mapping r ≠ qurro_matching_conflict).map
        fun r => resolveFull mapping r) := by
    rw [List.map_map]
    rfl
  constructor
  · intro hnodup
    simp only [read_gnps_feature_metadata_file, hm, hres, hkept, hfst]
    rw [if_pos hnodup, List.map_map]
    rfl
  · intro hnodup
    simp only [read_gnps_feature_metadata_file, hm, hres, hkept, hfst]
    rw [if_neg hnodup]

/-- Concrete instance of `read_gnps_feature_metadata_file_spec`, the
reconciler end-to-end scenario: reference identifiers
`"1.00001;2.00001"` and `"1.00002;2.00002"` both truncate to
`"1.0000;2.0000"`, so the two external rows keyed on that value are
dropped; the unambiguous `"5.5;6.6"` row survives, re-indexed under
`"5.5;6.6"`.  (`⟨7430939385161318, 1125899906842624⟩` is the exact
binary64 value of 6.6.) -/
theorem read_gnps_feature_metadata_file_spec_witness :
    read_gnps_feature_metadata_file
      [⟨⟨1, 1⟩, ⟨2, 1⟩, "libA"⟩, ⟨⟨1, 1⟩, ⟨2, 1⟩, "libB"⟩,
       ⟨⟨11, 2⟩, ⟨7430939385161318, 1125899906842624⟩, "libC"⟩]
      ["1.00001;2.00001", "1.00002;2.00002", "5.5;6.6"] = .ok [("5.5;6.6", "libC")] := by
  have h := (read_gnps_feature_metadata_file_spec
    [⟨⟨1, 1⟩, ⟨2, 1⟩, "libA"⟩, ⟨⟨1, 1⟩, ⟨2, 1⟩, "libB"⟩,
     ⟨⟨11, 2⟩, ⟨7430939385161318, 1125899906842624⟩, "libC"⟩]
    ["1.00001;2.00001", "1.00002;2.00002", "5.5;6.6"]
    [("1.0000;2.0000", "qurro_matching_conflict"), ("5.5000;6.6000", "5.5;6.6")]
    rfl (by decide)).1 (by decide)
  exact h.trans (congrArg Except.ok (by decide))

/-- **C2, counterexample.** With a reference table of zero rows and a
nonempty external table, the reconciler raises `KeyError` (the full-ID
lookup fails on the empty mapping) instead of returning a table with no
rows: the claim that it "returns a table with no rows (rather than
failing)" is false. -/
theorem read_gnps_empty_ranks_counterexample :
    read_gnps_feature_metadata_file [⟨⟨1, 1⟩, ⟨2, 1⟩, "lib"⟩] [] = .error .keyError ∧
    ∀ out, read_gnps_feature_metadata_file [⟨⟨1, 1⟩, ⟨2, 1⟩, "lib"⟩] [] ≠ .ok out := by
  refine ⟨rfl, ?_⟩
  intro out hout
  rw [show read_gnps_feature_metadata_file [⟨⟨1, 1⟩, ⟨2, 1⟩, "lib"⟩] [] =
    Except.error Err.keyError from rfl] at hout
  exact Except.noConfusion hout

/-- **C2 (amended).** A reference table with zero rows yields an empty
mapping.  If the external table also has zero rows the reconciler
returns a table with no rows; if the external table has any row, the
full-identifier lookup on the empty mapping fails (`KeyError`) rather
than dropping the rows. -/
theorem read_gnps_empty_ranks (md : List GnpsRow) :
    buildMapping [] = .ok [] ∧
    read_gnps_feature_metadata_file [] [] = .ok [] ∧
    (md ≠ [] → read_gnps_feature_metadata_file md [] = .error .keyError) := by
  refine ⟨rfl, rfl, ?_⟩
  intro hne
  cases md with
  | nil => exact absurd rfl hne
  | cons r rs => rfl

/-- Concrete instance of `read_gnps_empty_ranks`: one external row with
an empty reference table raises `KeyError`; empty external input returns
the empty table. -/
theorem read_gnps_empty_ranks_witness :
    read_gnps_feature_metadata_file [⟨⟨3, 1⟩, ⟨4, 1⟩, "libX"⟩] [] = .error .keyError ∧
    read_gnps_feature_metadata_file [] [] = .ok [] := by
  exact ⟨(read_gnps_empty_ranks [⟨⟨3, 1⟩, ⟨4, 1⟩, "libX"⟩]).2.2 (by simp),
    (read_gnps_empty_ranks []).2.1⟩

end Qurro
